import Mathlib

/-!
Package `binding` (vendor/github.com/gonum/internal/binding/binding.go).

A shallow embedding of the helpers for building autogenerated cgo bindings:
the platform type model, the `TypeKey` lookup key, the two built-in template
tables `goTypes` and `cgoTypes`, the four lookup functions `GoTypeFor`,
`GoTypeForEnum`, `CgoConversionFor` and `CgoConversionForEnum`, the string
helpers `LowerCaseFirst` and `UpperCaseFirst`, the documentation extractor
`DocComments`, and the declaration extractor `Declarations` with its order
`byPosition`.

Conventions of the embedding:
* a Go `panic(v)` is the `Except.error` result carrying its value, a normal
  return is `Except.ok`;
* a possibly-nil `cc.Type` interface value is an `Option CType`;
* a Go `map[K]*template.Template` is an association list searched with
  `List.lookup`;
* the process-wide dictionary `xc.Dict` is passed explicitly as a function
  from token ids to their text, and the file set `xc.FileSet` as a function from
  token positions to resolved positions;
* the results of the parsers (`cc.HostConfig`, `cc.Parse`, `parser.ParseDir`) are
  parameters;
* a Go string whose bytes are computed on is the list of its bytes.
-/

namespace Binding

/-! ## The collaborator types of package `cc` -/

/-- Modelled from the spec: the kinds of a resolved foreign type (`cc.Kind`),
whose declaration lives in the parser collaborator. The constants are the ones
package `cc` exports; binding.go names `Undefined`, the 21 kinds of `model`,
`Enum` and `Function`. -/
inductive Kind where
  | Undefined
  | Void
  | Ptr
  | UintPtr
  | Char
  | SChar
  | UChar
  | Short
  | UShort
  | Int
  | UInt
  | Long
  | ULong
  | LongLong
  | ULongLong
  | Float
  | Double
  | LongDouble
  | Bool
  | FloatComplex
  | DoubleComplex
  | LongDoubleComplex
  | Struct
  | Union
  | Enum
  | TypedefName
  | Function
  | Array
  deriving DecidableEq, Repr

/-- Kinds that carry an element type: `Element()` is the pointee of a `Ptr`
type and the element of an `Array` type. -/
def hasElement : Kind → Bool
  | Kind.Ptr => true
  | Kind.Array => true
  | _ => false

/-- Modelled from the spec: a resolved foreign type (`cc.Type`), an opaque handle
of the parser collaborator exposing `Kind()`, `Element()` and `Tag()`. A pointer
or array type carries its element type; every other type carries its kind and
its tag (the dictionary id of the enum/struct name, `0` when there is none). -/
inductive CType where
  | ptr (elem : CType)
  | array (elem : CType)
  | named (kind : Kind) (tag : Nat) (h : hasElement kind = false)

/-- Method `Kind()` of `cc.Type`. -/
def CType.Kind : CType → Kind
  | .ptr _ => Kind.Ptr
  | .array _ => Kind.Array
  | .named k _ _ => k

/-- Method `Element()` of `cc.Type`; `none` is the nil interface value. -/
def CType.Element : CType → Option CType
  | .ptr e => some e
  | .array e => some e
  | .named _ _ _ => none

/-- Method `Tag()` of `cc.Type`. -/
def CType.Tag : CType → Nat
  | .ptr _ => 0
  | .array _ => 0
  | .named _ t _ => t

/-- Modelled from the spec: one entry of the platform type model (`cc.ModelItem`). -/
structure ModelItem where
  Size : Nat
  Align : Nat
  StructAlign : Nat
  deriving DecidableEq, Repr

/-- Modelled from the spec: the platform type model (`cc.Model`), a map from kind
to its size and alignments. -/
structure Model where
  Items : List (Kind × ModelItem)
  deriving DecidableEq, Repr

/-! ## Templates of package `text/template` -/

/-- Modelled from the spec: a node of a parsed template. `text s` is literal text,
`dot` is the action that prints the data the template is executed with, `field f`
is the action selecting field `f` of the data. -/
inductive Node where
  | text (s : String)
  | dot
  | field (f : String)
  deriving DecidableEq, Repr

/-- Modelled from the spec: a parsed template (`*template.Template`): its display
label and its parse tree. -/
structure Template where
  name : String
  tree : List Node
  deriving DecidableEq, Repr

/-- Executing one node against string data: text is copied, the dot action prints
the data, selecting a field of a string is an execution error. -/
def Node.exec (data : String) : Node → Except String String
  | .text s => .ok s
  | .dot => .ok data
  | .field f => .error ("can't evaluate field " ++ f ++ " in type string")

/-- Method `Execute(&buf, data)`: appends the rendering of every node to the
buffer, stopping at the first error. -/
def Template.Execute (t : Template) (buf : String) (data : String) : Except String String :=
  t.tree.foldlM (fun b n => (Node.exec data n).map (fun s => b ++ s)) buf

/-! ## binding.go -/

/-- The Go function `model`, with `unsafe.Sizeof(uintptr(0))` and
`unsafe.Sizeof(int(0))` taken as the parameters `p` and `i`. -/
def model (p i : Nat) : Model :=
  { Items := [
      (Kind.Ptr,               { Size := p, Align := p, StructAlign := p }),
      (Kind.UintPtr,           { Size := p, Align := p, StructAlign := p }),
      (Kind.Void,              { Size := 0, Align := 1, StructAlign := 1 }),
      (Kind.Char,              { Size := 1, Align := 1, StructAlign := 1 }),
      (Kind.SChar,             { Size := 1, Align := 1, StructAlign := 1 }),
      (Kind.UChar,             { Size := 1, Align := 1, StructAlign := 1 }),
      (Kind.Short,             { Size := 2, Align := 2, StructAlign := 2 }),
      (Kind.UShort,            { Size := 2, Align := 2, StructAlign := 2 }),
      (Kind.Int,               { Size := 4, Align := 4, StructAlign := 4 }),
      (Kind.UInt,              { Size := 4, Align := 4, StructAlign := 4 }),
      (Kind.Long,              { Size := i, Align := i, StructAlign := i }),
      (Kind.ULong,             { Size := i, Align := i, StructAlign := i }),
      (Kind.LongLong,          { Size := 8, Align := 8, StructAlign := 8 }),
      (Kind.ULongLong,         { Size := 8, Align := 8, StructAlign := 8 }),
      (Kind.Float,             { Size := 4, Align := 4, StructAlign := 4 }),
      (Kind.Double,            { Size := 8, Align := 8, StructAlign := 8 }),
      (Kind.LongDouble,        { Size := 8, Align := 8, StructAlign := 8 }),
      (Kind.Bool,              { Size := 1, Align := 1, StructAlign := 1 }),
      (Kind.FloatComplex,      { Size := 8, Align := 8, StructAlign := 8 }),
      (Kind.DoubleComplex,     { Size := 16, Align := 16, StructAlign := 16 }),
      (Kind.LongDoubleComplex, { Size := 16, Align := 16, StructAlign := 16 })] }

/-- TypeKey is a terse C type description. -/
structure TypeKey where
  IsPointer : Bool
  Kind : Kind
  deriving DecidableEq, Repr

/-- The values a call of this package can panic with. -/
inductive Panic where
  /-- The error of a failed template execution: `panic(err)`. -/
  | error (err : String)
  /-- The message `unknown type key: %+v` formatted with the key. -/
  | unknownTypeKey (key : TypeKey)
  /-- The message `invalid type: %v` formatted with the type. -/
  | invalidType (typ : CType)
  /-- The message `unknown type: %+v` formatted with the type. -/
  | unknownType (typ : CType)
  /-- The runtime error of calling a method on a nil interface value. -/
  | nilDereference

/-- A table of templates keyed by `κ` (`map[κ]*template.Template`). -/
abbrev Table (κ : Type) := List (κ × Template)

/-- The built-in table `goTypes`. -/
def goTypes : Table TypeKey := [
  ({ IsPointer := false, Kind := Kind.Undefined },     ⟨"<undefined>", [.text "<undefined>"]⟩),
  ({ IsPointer := false, Kind := Kind.Int },           ⟨"int", [.text "int"]⟩),
  ({ IsPointer := false, Kind := Kind.Float },         ⟨"float32", [.text "float32"]⟩),
  ({ IsPointer := true,  Kind := Kind.Float },         ⟨"[]float32", [.text "[]float32"]⟩),
  ({ IsPointer := false, Kind := Kind.Double },        ⟨"float64", [.text "float64"]⟩),
  ({ IsPointer := true,  Kind := Kind.Double },        ⟨"[]float64", [.text "[]float64"]⟩),
  ({ IsPointer := false, Kind := Kind.Bool },          ⟨"bool", [.text "bool"]⟩),
  ({ IsPointer := false, Kind := Kind.FloatComplex },  ⟨"complex64", [.text "complex64"]⟩),
  ({ IsPointer := false, Kind := Kind.DoubleComplex }, ⟨"complex128", [.text "complex128"]⟩)]

/-- The statements `var buf bytes.Buffer; err := s.Execute(&buf, name);
if err != nil then panic(err); return buf.String()` shared by the four lookups. -/
def render (s : Template) (name : String) : Except Panic String :=
  match s.Execute "" name with
  | .ok out => .ok out
  | .error err => .error (Panic.error err)

/-- The loop `for _, t := range types` with the body
`if s, ok := t[key]; ok then return the rendering of s`: the result of the first
table holding `key`, or `none` when the loop runs to its end. -/
def rangeTypes {κ : Type} [BEq κ] (key : κ) (name : String) :
    List (Table κ) → Option (Except Panic String)
  | [] => none
  | t :: rest =>
    match t.lookup key with
    | some s => some (render s name)
    | none => rangeTypes key name rest

/-- The key computed at the head of `GoTypeFor` and of `CgoConversionFor`:
`k := typ.Kind(); isPtr := typ.Kind() == cc.Ptr; if isPtr then k = typ.Element().Kind()`. -/
def typeKey (typ : CType) : Except Panic TypeKey :=
  let k := typ.Kind
  let isPtr := typ.Kind == Kind.Ptr
  if isPtr then
    match typ.Element with
    | some e => .ok { Kind := e.Kind, IsPointer := isPtr }
    | none => .error Panic.nilDereference
  else
    .ok { Kind := k, IsPointer := isPtr }

/-- GoTypeFor returns a string representation of the given type using a mapping
in types, searching the user-provided mappings and then `goTypes`. -/
def GoTypeFor (typ : Option CType) (name : String) (types : List (Table TypeKey)) :
    Except Panic String :=
  match typ with
  | none => .ok "<nil>"
  | some typ =>
    match typeKey typ with
    | .error e => .error e
    | .ok key =>
      match rangeTypes key name types with
      | some r => r
      | none =>
        match goTypes.lookup key with
        | some s => render s name
        | none => .error (Panic.unknownTypeKey key)

/-- GoTypeForEnum returns a string representation of the given enum type using a
mapping in types; `dict` is `xc.Dict.S`. -/
def GoTypeForEnum (dict : Nat → String) (typ : Option CType) (name : String)
    (types : List (Table String)) : Except Panic String :=
  match typ with
  | none => .ok "<nil>"
  | some typ =>
    if typ.Kind != Kind.Enum then
      .error (Panic.invalidType typ)
    else
      let tag := typ.Tag
      if tag != 0 then
        let n := dict tag
        match rangeTypes n name types with
        | some r => r
        | none => .error (Panic.unknownType typ)
      else
        .error (Panic.unknownType typ)

/-- The built-in table `cgoTypes`. -/
def cgoTypes : Table TypeKey := [
  ({ Kind := Kind.Void, IsPointer := true },
    ⟨"void*", [.text "unsafe.Pointer(&", .dot, .text "[0])"]⟩),
  ({ Kind := Kind.Int, IsPointer := false },
    ⟨"int", [.text "C.int(", .dot, .text ")"]⟩),
  ({ Kind := Kind.Float, IsPointer := false },
    ⟨"float", [.text "C.float(", .dot, .text ")"]⟩),
  ({ Kind := Kind.Double, IsPointer := false },
    ⟨"double", [.text "C.double(", .dot, .text ")"]⟩),
  ({ Kind := Kind.Float, IsPointer := true },
    ⟨"float*", [.text "(*C.float)(&", .dot, .text "[0])"]⟩),
  ({ Kind := Kind.Double, IsPointer := true },
    ⟨"double*", [.text "(*C.double)(&", .dot, .text "[0])"]⟩),
  ({ Kind := Kind.Bool, IsPointer := false },
    ⟨"bool", [.text "C.bool(", .dot, .text ")"]⟩),
  ({ Kind := Kind.FloatComplex, IsPointer := false },
    ⟨"floatcomplex", [.text "unsafe.Pointer(", .dot, .text ")"]⟩),
  ({ Kind := Kind.DoubleComplex, IsPointer := false },
    ⟨"doublecomplex", [.text "unsafe.Pointer(", .dot, .text ")"]⟩),
  ({ Kind := Kind.FloatComplex, IsPointer := true },
    ⟨"floatcomplex*", [.text "unsafe.Pointer(&", .dot, .text "[0])"]⟩),
  ({ Kind := Kind.DoubleComplex, IsPointer := true },
    ⟨"doublecomplex*", [.text "unsafe.Pointer(&", .dot, .text "[0])"]⟩)]

/-- CgoConversionFor returns a string representation of the given type using a
mapping in types, searching the user-provided mappings and then `cgoTypes`. -/
def CgoConversionFor (name : String) (typ : Option CType) (types : List (Table TypeKey)) :
    Except Panic String :=
  match typ with
  | none => .ok "<nil>"
  | some typ =>
    match typeKey typ with
    | .error e => .error e
    | .ok key =>
      match rangeTypes key name types with
      | some r => r
      | none =>
        match cgoTypes.lookup key with
        | some s => render s name
        | none => .error (Panic.unknownTypeKey key)

/-- CgoConversionForEnum returns a string representation of the given enum type
using a mapping in types; `dict` is `xc.Dict.S`. -/
def CgoConversionForEnum (dict : Nat → String) (name : String) (typ : Option CType)
    (types : List (Table String)) : Except Panic String :=
  match typ with
  | none => .ok "<nil>"
  | some typ =>
    if typ.Kind != Kind.Enum then
      .error (Panic.invalidType typ)
    else
      let tag := typ.Tag
      if tag != 0 then
        let n := dict tag
        match rangeTypes n name types with
        | some r => r
        | none => .error (Panic.unknownType typ)
      else
        .error (Panic.unknownType typ)

/-! ## Sample inputs -/

/-- The C type `float`. -/
def floatT : CType := CType.named Kind.Float 0 rfl

/-- The C type `float*`. -/
def floatPtrT : CType := CType.ptr floatT

/-- The C type `double`. -/
def doubleT : CType := CType.named Kind.Double 0 rfl

/-- The C type `float[]`. -/
def floatArrayT : CType := CType.array floatT

/-- The C type `float**`. -/
def floatPtrPtrT : CType := CType.ptr floatPtrT

/-- A user table mapping `float` to the template `T1({{.}})`. -/
def userT1 : Table TypeKey :=
  [({ Kind := Kind.Float, IsPointer := false }, ⟨"t1", [.text "T1(", .dot, .text ")"]⟩)]

/-- A user table mapping `float` to the template `T2({{.}})`. -/
def userT2 : Table TypeKey :=
  [({ Kind := Kind.Float, IsPointer := false }, ⟨"t2", [.text "T2(", .dot, .text ")"]⟩)]

/-- A user table with an entry for another key only (`double`). -/
def userOther : Table TypeKey :=
  [({ Kind := Kind.Double, IsPointer := false }, ⟨"other", [.text "Other"]⟩)]

/-- An enum type whose tag is the dictionary id `1`. -/
def colorEnumT : CType := CType.named Kind.Enum 1 rfl

/-- An anonymous enum type: its tag is `0`. -/
def anonEnumT : CType := CType.named Kind.Enum 0 rfl

/-- A dictionary in which id `1` is `Color` and every other id, `0` included, is
the empty string. -/
def colorDict : Nat → String := fun id => if id = 1 then "Color" else ""

/-- The enum table `{"Color": template "ColorEnum"}`. -/
def colorTable : Table String := [("Color", ⟨"ColorEnum", [.text "ColorEnum"]⟩)]

/-- An enum table with an entry keyed by the empty string and one keyed by `Color`. -/
def emptyKeyTable : Table String :=
  [("", ⟨"anon", [.text "Anon"]⟩), ("Color", ⟨"ColorEnum", [.text "ColorEnum"]⟩)]

/-- A type of kind `Undefined`. -/
def undefinedT : CType := CType.named Kind.Undefined 0 rfl

/-- The C type `double*`. -/
def doublePtrT : CType := CType.ptr doubleT

/-- The C type `float complex`. -/
def floatComplexT : CType := CType.named Kind.FloatComplex 0 rfl

/-- The C type `double complex`. -/
def doubleComplexT : CType := CType.named Kind.DoubleComplex 0 rfl

/-- The mapping listed in the doc comment of `GoTypeFor`, as written there: the
table that the comment says is searched after the user-provided mappings. -/
def goTypesDoc : List (TypeKey × String) := [
  ({ Kind := Kind.Int, IsPointer := false },           "int"),
  ({ Kind := Kind.Float, IsPointer := false },         "float32"),
  ({ Kind := Kind.Float, IsPointer := true },          "[]float32"),
  ({ Kind := Kind.Double, IsPointer := false },        "float64"),
  ({ Kind := Kind.Double, IsPointer := true },         "[]float64"),
  ({ Kind := Kind.Bool, IsPointer := false },          "bool"),
  ({ Kind := Kind.FloatComplex, IsPointer := false },  "complex64"),
  ({ Kind := Kind.DoubleComplex, IsPointer := false }, "complex128")]

/-- The mapping listed in the doc comment of `CgoConversionFor`, as written there,
each template text given by its parse tree. -/
def cgoTypesDoc : List (TypeKey × List Node) := [
  ({ Kind := Kind.Void, IsPointer := true },
    [.text "unsafe.Pointer(&", .dot, .text "[0])"]),
  ({ Kind := Kind.Int, IsPointer := false },           [.text "C.int(", .dot, .text ")"]),
  ({ Kind := Kind.Float, IsPointer := false },         [.text "C.float(", .dot, .text ")"]),
  ({ Kind := Kind.Float, IsPointer := true },          [.text "(*C.float)(", .dot, .text ")"]),
  ({ Kind := Kind.Double, IsPointer := false },        [.text "C.double(", .dot, .text ")"]),
  ({ Kind := Kind.Double, IsPointer := true },         [.text "(*C.double)(", .dot, .text ")"]),
  ({ Kind := Kind.Bool, IsPointer := false },          [.text "C.bool(", .dot, .text ")"]),
  ({ Kind := Kind.FloatComplex, IsPointer := false },
    [.text "unsafe.Pointer(&", .dot, .text ")"]),
  ({ Kind := Kind.DoubleComplex, IsPointer := false },
    [.text "unsafe.Pointer(&", .dot, .text ")"]),
  ({ Kind := Kind.FloatComplex, IsPointer := true },
    [.text "unsafe.Pointer(&", .dot, .text "[0])"]),
  ({ Kind := Kind.DoubleComplex, IsPointer := true },
    [.text "unsafe.Pointer(&", .dot, .text "[0])"])]

/-! ## Declarations: the parsed translation unit -/

/-- Modelled from the spec: a resolved source position (`token.Position`). -/
structure Position where
  Filename : String
  Offset : Int
  Line : Int
  Column : Int
  deriving DecidableEq, Repr

/-- Modelled from the spec: a parameter of a function type (`cc.Parameter`): the
dictionary id of its name, `0` for an unnamed parameter, and its type. -/
structure CParameter where
  Name : Nat
  Typ : CType

/-- Modelled from the spec: a declarator of the parser collaborator
(`cc.Declarator`), as far as `Declarations` reads it: its resolved type `Type`,
the results of `Type.Parameters()` and of `Type.Result()`, its position `Pos()`
and the dictionary id returned by `Identifier()`. -/
structure Declarator where
  Typ : CType
  Parameters : List CParameter × Bool
  Result : Option CType
  Pos : Int
  Identifier : Nat

/-- Modelled from the spec: the grammar node `InitDeclarator` of the parser
collaborator: case 0 is a bare declarator, case 1 is `Declarator '=' Initializer`. -/
inductive InitDeclarator where
  | plain (declarator : Declarator)
  | assigned (declarator : Declarator)

/-- Field `Case` of an `InitDeclarator`. -/
def InitDeclarator.Case : InitDeclarator → Nat
  | .plain _ => 0
  | .assigned _ => 1

/-- Field `Declarator` of an `InitDeclarator`. -/
def InitDeclarator.Declarator : InitDeclarator → Declarator
  | .plain d => d
  | .assigned d => d

/-- Modelled from the spec: the grammar node `InitDeclaratorList`, a linked list of
init-declarators: `last` has a nil `InitDeclaratorList` field, `more` links the
rest of a comma-separated list. -/
inductive InitDeclaratorList where
  | last (id : InitDeclarator)
  | more (id : InitDeclarator) (next : InitDeclaratorList)

/-- Field `InitDeclarator` of an `InitDeclaratorList`. -/
def InitDeclaratorList.InitDeclarator : InitDeclaratorList → InitDeclarator
  | .last id => id
  | .more id _ => id

set_option linter.dupNamespace false in
/-- Field `InitDeclaratorList` of an `InitDeclaratorList`; `none` is nil. -/
def InitDeclaratorList.InitDeclaratorList : InitDeclaratorList → Option InitDeclaratorList
  | .last _ => none
  | .more _ next => some next

/-- Modelled from the spec: the grammar node `Declaration` of the parser
collaborator: case 0 is `DeclarationSpecifiers InitDeclaratorListOpt ';'`, whose
optional list is nil when nothing is declared, case 1 is a static assertion. -/
inductive CDeclaration where
  | specifiers (InitDeclaratorListOpt : Option InitDeclaratorList)
  | staticAssert

/-- Field `Case` of a `cc.Declaration`. -/
def CDeclaration.Case : CDeclaration → Nat
  | .specifiers _ => 0
  | .staticAssert => 1

/-- Modelled from the spec: the grammar node `ExternalDeclaration` of the parser
collaborator: case 0 is a function definition (with a body), case 1 a declaration,
case 2 an assembler statement and case 3 a lone semicolon. -/
inductive ExternalDeclaration where
  | functionDefinition (declarator : Declarator)
  | declaration (d : CDeclaration)
  | assembler
  | empty

/-- Field `Case` of an `ExternalDeclaration`. -/
def ExternalDeclaration.Case : ExternalDeclaration → Nat
  | .functionDefinition _ => 0
  | .declaration _ => 1
  | .assembler => 2
  | .empty => 3

/-- Declaration is a description of a C function declaration. -/
structure Declaration where
  Pos : Int
  Name : String
  Return : Option CType
  CParameters : List CParameter
  Variadic : Bool

/-- Position returns the token position of the declaration; `fset` is
`xc.FileSet.Position`. -/
def Declaration.Position (fset : Int → Position) (d : Declaration) : Position :=
  fset d.Pos

/-- The body of the loop of `Declarations` for one item `t.ExternalDeclaration`:
`none` when the item is skipped by a `continue`, the appended declaration
otherwise. -/
def declarationOf (dict : Nat → String) (t : ExternalDeclaration) : Option Declaration :=
  match t with
  | .declaration d =>
    match d with
    | .specifiers init =>
      match init with
      | none => none
      | some idl =>
        if idl.InitDeclaratorList.isSome then
          none
        else
          let id := idl.InitDeclarator
          if id.Case != 0 then
            none
          else
            let declarator := id.Declarator
            if declarator.Typ.Kind != Kind.Function then
              none
            else
              let (params, variadic) := declarator.Parameters
              let name := declarator.Identifier
              some {
                Pos := declarator.Pos
                Name := dict name
                Return := declarator.Result
                CParameters := params
                Variadic := variadic }
    | .staticAssert => none
  | _ => none

/-- The loop `for ; t != nil; t = t.TranslationUnit` of `Declarations`, the
translation unit given as the list of its items, `decls` the slice built so far. -/
def declarationsLoop (dict : Nat → String) :
    List ExternalDeclaration → List Declaration → List Declaration
  | [], decls => decls
  | t :: rest, decls =>
    match declarationOf dict t with
    | none => declarationsLoop dict rest decls
    | some d => declarationsLoop dict rest (decls ++ [d])

/-- Method `Less` of `byPosition`, on the two elements `d[i]` and `d[j]`. -/
def byPosition.Less (fset : Int → Position) (di dj : Declaration) : Bool :=
  let iPos := di.Position fset
  let jPos := dj.Position fset
  if iPos.Filename = jPos.Filename then
    decide (iPos.Line < jPos.Line)
  else
    decide (iPos.Filename < jPos.Filename)

/-- The inner loop of the insertion sort of package `sort`,
`for j := i; j > a && data.Less(j, j-1); j-- then data.Swap(j, j-1)`: the element
`x` moves towards the front past every element it is less than; `sorted` is the
part before `x`, nearest element first. -/
def insertBack {α : Type} (less : α → α → Bool) (x : α) : List α → List α
  | [] => [x]
  | y :: sorted => if less x y then y :: insertBack less x sorted else x :: y :: sorted

/-- Modelled from the spec: `sort.Sort` of the Go standard library, which sorts by
the order `less` the slice it is given. It is embedded as the insertion sort that
the library runs on short slices, element after element from the front. -/
def sortSort {α : Type} (less : α → α → Bool) (data : List α) : List α :=
  (data.foldl (fun sorted x => insertBack less x sorted) []).reverse

/-- The errors `Declarations` returns: `binding: failed to get host config: %v`
and `binding: failed to parse %q: %v`, given by the formatted values. -/
inductive DeclarationsError where
  | hostConfig (err : String)
  | parse (paths : List String) (err : String)
  deriving DecidableEq, Repr

/-- The source text `Declarations` appends to the predefined macros. -/
def builtinDefines : String :=
  "\n#define __const const\n#define __attribute__(...)\n#define __extension__\n#define __inline\n#define __restrict\nunsigned __builtin_bswap32 (unsigned x);\nunsigned long long __builtin_bswap64 (unsigned long long x);\n"

/-- Declarations returns the C function declarations in the given set of file
paths. The collaborators are parameters: `hostConfig` is the result of
`cc.HostConfig()` (predefined text, include paths, system include paths),
`parse` is `cc.Parse` and returns the items of the translation unit, `p` and `i`
are the sizes `model` reads, `fset` is `xc.FileSet.Position` and `dict` is
`xc.Dict.S`. -/
def Declarations (hostConfig : Except String (String × List String × List String))
    (parse : String → List String → Model → List String → List String →
      Except String (List ExternalDeclaration))
    (p i : Nat) (fset : Int → Position) (dict : Nat → String) (paths : List String) :
    Except DeclarationsError (List Declaration) :=
  match hostConfig with
  | .error err => .error (DeclarationsError.hostConfig err)
  | .ok (predefined, includePaths, sysIncludePaths) =>
    match parse (predefined ++ builtinDefines) paths (model p i) includePaths
        sysIncludePaths with
    | .error err => .error (DeclarationsError.parse paths err)
    | .ok t =>
      let decls := declarationsLoop dict t []
      .ok (sortSort (byPosition.Less fset) decls)

/-! ## Strings as byte sequences: `LowerCaseFirst` and `UpperCaseFirst` -/

/-- The conversion `string(b)` of a byte to a string: the UTF-8 encoding of the
code point `b`, one byte below `0x80` and two bytes from there on. A Go string is
the list of its bytes. -/
def stringOfByte (b : Nat) : List Nat :=
  if b < 0x80 then [b] else [0xC0 ||| (b >>> 6), 0x80 ||| (b &&& 0x3F)]

/-- LowerCaseFirst returns s with the first character lower-cased:
`string(s[0]|' ') + s[1:]`, the space being the byte `0x20`. -/
def LowerCaseFirst (s : List Nat) : List Nat :=
  match s with
  | [] => s
  | c :: rest => stringOfByte ((c ||| 0x20) % 256) ++ rest

/-- UpperCaseFirst returns s with the first character upper-cased:
`string(s[0]&^' ') + s[1:]`, the bit-clear operator on bytes. -/
def UpperCaseFirst (s : List Nat) : List Nat :=
  match s with
  | [] => s
  | c :: rest => stringOfByte ((c &&& (0xFF ^^^ 0x20)) % 256) ++ rest

/-- The bytes of a string of ASCII characters. -/
def asciiBytes (s : String) : List Nat := s.data.map Char.toNat

/-- The upper-casing of one ASCII character, in the words of the doc comment: a
lower-case letter `a`..`z` becomes the corresponding upper-case letter, every
other character is kept. -/
def upperAscii (c : Nat) : Nat := if 0x61 ≤ c ∧ c ≤ 0x7A then c - 0x20 else c

/-- The lower-casing of one ASCII character, in the words of the doc comment: an
upper-case letter `A`..`Z` becomes the corresponding lower-case letter, every
other character is kept. -/
def lowerAscii (c : Nat) : Nat := if 0x41 ≤ c ∧ c ≤ 0x5A then c + 0x20 else c

/-! ## `DocComments`: the parsed Go source tree -/

/-- Modelled from the spec: a type expression of package `go/ast`, as far as the
receiver of a method needs it: an identifier `T`, a pointer `*X`, or another
expression. -/
inductive Expr where
  | Ident (Name : String)
  | StarExpr (X : Expr)
  | other

/-- Modelled from the spec: a field of a field list (`ast.Field`), here the
receiver, given by its type expression. -/
structure Field where
  Typ : Expr

/-- Modelled from the spec: a function declaration (`ast.FuncDecl`): `Doc` is the
list of its comment group, `none` when the function has no documentation, `Recv`
is the list of its receiver field list, `none` for a function that is no method,
and `Name` is its name. A comment is its text. -/
structure FuncDecl where
  Doc : Option (List String)
  Recv : Option (List Field)
  Name : String

/-- Modelled from the spec: a top-level declaration of a Go file (`ast.Decl`):
a function declaration or a general declaration (import, const, type, var). -/
inductive Decl where
  | FuncDecl (fn : FuncDecl)
  | GenDecl

/-- Modelled from the spec: a parsed Go file (`ast.File`). -/
structure File where
  Decls : List Decl

/-- Modelled from the spec: a parsed package (`ast.Package`), its files in the
order the map `Files` is ranged over. -/
structure Package where
  Files : List File

/-- The map `map[string]map[string][]*ast.Comment` that `DocComments` returns. -/
abbrev Docs := String → Option (String → Option (List String))

/-- The entry `docs[typ][name]`, `none` when either key is missing. -/
def Docs.get (docs : Docs) (typ name : String) : Option (List String) :=
  match docs typ with
  | some doc => doc name
  | none => none

/-- The body of the innermost loop of `DocComments` for the declaration `n`. -/
def docCommentsDecl (docs : Docs) (n : Decl) : Docs :=
  match n with
  | .FuncDecl fn =>
    match fn.Doc with
    | none => docs
    | some list =>
      let typ : String :=
        match fn.Recv with
        | some (f :: _) =>
          match f.Typ with
          | .Ident name => name
          | _ => ""
        | _ => ""
      let doc : String → Option (List String) :=
        match docs typ with
        | some doc => doc
        | none => fun _ => none
      fun t => if t = typ then some (fun m => if m = fn.Name then some list else doc m)
        else docs t
  | .GenDecl => docs

/-- DocComments returns a map of method documentation comments for the package at
the given path; `parseDir` is the result of `parser.ParseDir`, the packages in
the order the map is ranged over. -/
def DocComments (parseDir : Except String (List Package)) : Except String Docs :=
  match parseDir with
  | .error err => .error err
  | .ok pkgs =>
    .ok (pkgs.foldl
      (fun docs p => p.Files.foldl (fun docs f => f.Decls.foldl docCommentsDecl docs) docs)
      (fun _ => none))

/-! ## The filtering policy of the declaration extractor, in the words of the spec -/

/-- The init-declarators of a linked list, first to last. -/
def initDeclarators : InitDeclaratorList → List InitDeclarator
  | .last id => [id]
  | .more id next => id :: initDeclarators next

/-- The declarators of a top-level item, one for every identifier it declares: the
declarator of a function definition, the init-declarators of a declaration, and
none for a static assertion, an assembler statement or a lone semicolon. -/
def declarators : ExternalDeclaration → List InitDeclarator
  | .functionDefinition d => [InitDeclarator.plain d]
  | .declaration (.specifiers (some idl)) => initDeclarators idl
  | _ => []

/-- Condition 1 of the filtering policy: the item is a declaration, not a
definition with a body. -/
def isDeclaration : ExternalDeclaration → Bool
  | .declaration _ => true
  | _ => false

/-- Condition 3 of the filtering policy reads this: the declarator carries an
initializer (an assignment in the declaration). -/
def hasInitializer : InitDeclarator → Bool
  | .plain _ => false
  | .assigned _ => true

/-- The Declaration an accepted item yields: the position, name, result type,
parameter list and variadic flag of its declarator. -/
def describe (dict : Nat → String) (d : Declarator) : Declaration :=
  { Pos := d.Pos
    Name := dict d.Identifier
    Return := d.Result
    CParameters := d.Parameters.1
    Variadic := d.Parameters.2 }

/-! ## Sample translation units -/

/-- The C type `int`. -/
def intT : CType := CType.named Kind.Int 0 rfl

/-- A function type. -/
def functionT : CType := CType.named Kind.Function 0 rfl

/-- A dictionary of identifiers: `f`, `x`, `y`, `g`, `h` and the parameter names
`a` and `b`; every other id is the empty string. -/
def sampleDict : Nat → String := fun id =>
  if id = 10 then "f" else if id = 11 then "x" else if id = 12 then "y"
  else if id = 13 then "g" else if id = 14 then "h" else if id = 20 then "a"
  else if id = 21 then "b" else ""

/-- A file set in which position `n` is line `n` of `a.h`. -/
def sampleFset : Int → Position := fun n => ⟨"a.h", n, n, 1⟩

/-- The declarator of `int f(int a, int b);` at line 1. -/
def declaratorF : Declarator :=
  { Typ := functionT, Parameters := ([⟨20, intT⟩, ⟨21, intT⟩], false), Result := some intT,
    Pos := 1, Identifier := 10 }

/-- The declarators of `int x, y;` at line 2. -/
def declaratorX : Declarator :=
  { Typ := intT, Parameters := ([], false), Result := none, Pos := 2, Identifier := 11 }

/-- The second declarator of `int x, y;`. -/
def declaratorY : Declarator :=
  { Typ := intT, Parameters := ([], false), Result := none, Pos := 2, Identifier := 12 }

/-- The declarator of `int g(void) = something;` at line 3. -/
def declaratorG : Declarator :=
  { Typ := functionT, Parameters := ([], false), Result := some intT, Pos := 3,
    Identifier := 13 }

/-- The declarator of `int h(int);` at line 4, its parameter unnamed. -/
def declaratorH : Declarator :=
  { Typ := functionT, Parameters := ([⟨0, intT⟩], false), Result := some intT, Pos := 4,
    Identifier := 14 }

/-- The parsed set `int f(int a, int b); int x, y; int g(void) = something;
int h(int);`. -/
def sampleItems : List ExternalDeclaration := [
  .declaration (.specifiers (some (.last (.plain declaratorF)))),
  .declaration (.specifiers (some (.more (.plain declaratorX) (.last (.plain declaratorY))))),
  .declaration (.specifiers (some (.last (.assigned declaratorG)))),
  .declaration (.specifiers (some (.last (.plain declaratorH))))]

/-- A host configuration without predefined text or include paths. -/
def sampleHostConfig : Except String (String × List String × List String) :=
  .ok ("", [], [])

/-- A parser that returns the given items. -/
def sampleParse (items : List ExternalDeclaration) :
    String → List String → Model → List String → List String →
      Except String (List ExternalDeclaration) :=
  fun _ _ _ _ _ => .ok items

/-- A file set with position 1 at line 5 of `b.h`, position 2 at line 100 of
`a.h`, and every other position at line 1 of `a.h`. -/
def twoFilesFset : Int → Position := fun n =>
  if n = 1 then ⟨"b.h", 0, 5, 1⟩ else if n = 2 then ⟨"a.h", 0, 100, 1⟩ else ⟨"a.h", 0, 1, 1⟩

/-- A file set for `int f(void); int g(void);` written on one line: positions 1
and 2 are columns 1 and 14 of line 1 of `a.h`. -/
def oneLineFset : Int → Position := fun n =>
  if n = 1 then ⟨"a.h", 0, 1, 1⟩ else ⟨"a.h", 13, 1, 14⟩

/-- The declaration `f` at position 1. -/
def declF : Declaration :=
  { Pos := 1, Name := "f", Return := some intT, CParameters := [], Variadic := false }

/-- The declaration `g` at position 2. -/
def declG : Declaration :=
  { Pos := 2, Name := "g", Return := some intT, CParameters := [], Variadic := false }

/-- A function declaration item with the given position and identifier. -/
def functionItem (pos : Int) (ident : Nat) : ExternalDeclaration :=
  .declaration (.specifiers (some (.last (.plain
    { Typ := functionT, Parameters := ([], false), Result := some intT, Pos := pos,
      Identifier := ident }))))

/-- A parsed tree of one file: a documented method `M` on the receiver `*T`, a
documented method `N` on the receiver `T`, a documented function `F`, an
undocumented function `G` and a general declaration. -/
def sampleTree : List Package := [
  { Files := [
    { Decls := [
        .FuncDecl { Doc := some ["// M does."], Recv := some [⟨.StarExpr (.Ident "T")⟩],
                    Name := "M" },
        .FuncDecl { Doc := some ["// N does."], Recv := some [⟨.Ident "T"⟩], Name := "N" },
        .FuncDecl { Doc := some ["// F does."], Recv := none, Name := "F" },
        .FuncDecl { Doc := none, Recv := none, Name := "G" },
        .GenDecl] }] }]

/-! ## Lemmas on rendering, the key and the table search -/

theorem render_text (n a name : String) : render ⟨n, [.text a]⟩ name = .ok a := by
  simp [render, Template.Execute, Node.exec, Except.map, bind, Except.bind, pure, Except.pure]

theorem render_text_dot_text (n a b name : String) :
    render ⟨n, [.text a, .dot, .text b]⟩ name = .ok (a ++ name ++ b) := by
  simp [render, Template.Execute, Node.exec, Except.map, bind, Except.bind, pure, Except.pure]

theorem render_of_execute {s : Template} {name out : String}
    (h : s.Execute "" name = .ok out) : render s name = .ok out := by
  simp [render, h]

theorem kind_named_ne_ptr (k : Kind) (tag : Nat) (h : hasElement k = false) :
    (CType.named k tag h).Kind ≠ Kind.Ptr := by
  intro hk
  simp only [CType.Kind] at hk
  subst hk
  simp [hasElement] at h

theorem typeKey_ptr (e : CType) :
    typeKey (CType.ptr e) = .ok { IsPointer := true, Kind := e.Kind } := by
  simp [typeKey, CType.Kind, CType.Element]

theorem typeKey_of_ne_ptr (typ : CType) (h : typ.Kind ≠ Kind.Ptr) :
    typeKey typ = .ok { IsPointer := false, Kind := typ.Kind } := by
  simp [typeKey, h]

theorem typeKey_total (typ : CType) : ∃ key, typeKey typ = .ok key := by
  cases typ with
  | ptr e => exact ⟨_, typeKey_ptr e⟩
  | array e => exact ⟨_, typeKey_of_ne_ptr _ (by simp [CType.Kind])⟩
  | named k tag h => exact ⟨_, typeKey_of_ne_ptr _ (kind_named_ne_ptr k tag h)⟩

theorem rangeTypes_eq_none {κ : Type} [BEq κ] (key : κ) (name : String) (types : List (Table κ)) :
    rangeTypes key name types = none ↔ ∀ t ∈ types, t.lookup key = none := by
  induction types with
  | nil => simp [rangeTypes]
  | cons t rest ih =>
    cases hl : t.lookup key with
    | none => simp [rangeTypes, hl, ih]
    | some s => simp [rangeTypes, hl]

theorem rangeTypes_append_none {κ : Type} [BEq κ] (key : κ) (name : String)
    (pre rest : List (Table κ)) (hpre : ∀ u ∈ pre, u.lookup key = none) :
    rangeTypes key name (pre ++ rest) = rangeTypes key name rest := by
  induction pre with
  | nil => rfl
  | cons u pre ih =>
    have hu : u.lookup key = none := hpre u (by simp)
    simp only [List.cons_append, rangeTypes, hu]
    exact ih (fun v hv => hpre v (by simp [hv]))

theorem rangeTypes_first {κ : Type} [BEq κ] (key : κ) (name : String)
    (pre post : List (Table κ)) (t : Table κ) (s : Template)
    (hpre : ∀ u ∈ pre, u.lookup key = none) (ht : t.lookup key = some s) :
    rangeTypes key name (pre ++ t :: post) = some (render s name) := by
  rw [rangeTypes_append_none key name pre _ hpre]
  simp [rangeTypes, ht]

/-- Both lookups are the search of the user tables followed by the built-in one. -/
theorem lookup_eq_rangeTypes (builtin : Table TypeKey) (key : TypeKey) (name : String)
    (types : List (Table TypeKey)) :
    (match rangeTypes key name types with
      | some r => r
      | none =>
        match builtin.lookup key with
        | some s => render s name
        | none => .error (Panic.unknownTypeKey key)) =
    match rangeTypes key name (types ++ [builtin]) with
      | some r => r
      | none => .error (Panic.unknownTypeKey key) := by
  induction types with
  | nil =>
    cases hb : builtin.lookup key <;> simp [rangeTypes, hb]
  | cons t rest ih =>
    cases hl : t.lookup key with
    | none => simpa [rangeTypes, hl] using ih
    | some s => simp [rangeTypes, hl]

theorem GoTypeFor_eq (typ : CType) (key : TypeKey) (name : String)
    (types : List (Table TypeKey)) (hkey : typeKey typ = .ok key) :
    GoTypeFor (some typ) name types =
      match rangeTypes key name (types ++ [goTypes]) with
      | some r => r
      | none => .error (Panic.unknownTypeKey key) := by
  rw [← lookup_eq_rangeTypes]
  simp only [GoTypeFor, hkey]

theorem CgoConversionFor_eq (typ : CType) (key : TypeKey) (name : String)
    (types : List (Table TypeKey)) (hkey : typeKey typ = .ok key) :
    CgoConversionFor name (some typ) types =
      match rangeTypes key name (types ++ [cgoTypes]) with
      | some r => r
      | none => .error (Panic.unknownTypeKey key) := by
  rw [← lookup_eq_rangeTypes]
  simp only [CgoConversionFor, hkey]

theorem render_ne_unknownTypeKey (s : Template) (name : String) (k : TypeKey) :
    render s name ≠ .error (Panic.unknownTypeKey k) := by
  unfold render
  cases s.Execute "" name <;> simp

theorem rangeTypes_ne_unknownTypeKey {κ : Type} [BEq κ] (key : κ) (name : String)
    (types : List (Table κ)) (k : TypeKey) :
    rangeTypes key name types ≠ some (.error (Panic.unknownTypeKey k)) := by
  induction types with
  | nil => simp [rangeTypes]
  | cons t rest ih =>
    cases hl : t.lookup key with
    | none => simpa [rangeTypes, hl] using ih
    | some s => simpa [rangeTypes, hl] using render_ne_unknownTypeKey s name k

/-! ## Override precedence and the unknown-key failure -/

/-- C1: for every non-nil type, name and ordered sequence of override tables,
`GoTypeFor` and `CgoConversionFor` return the rendering, with `name` as the data,
of the entry of the first table of `types ++ [built-in table]` that holds the
type's key: the tables before it have no entry for the key, and whatever the
tables after it hold is ignored. In particular, when that template renders
without error the call returns the rendered string. -/
theorem GoTypeFor_first_table_wins (typ : CType) (key : TypeKey) (name : String)
    (types : List (Table TypeKey)) (hkey : typeKey typ = .ok key) :
    (∀ (pre post : List (Table TypeKey)) (t : Table TypeKey) (s : Template),
        types ++ [goTypes] = pre ++ t :: post →
        (∀ u ∈ pre, u.lookup key = none) → t.lookup key = some s →
        GoTypeFor (some typ) name types = render s name ∧
        ∀ out, s.Execute "" name = .ok out → GoTypeFor (some typ) name types = .ok out) ∧
    (∀ (pre post : List (Table TypeKey)) (t : Table TypeKey) (s : Template),
        types ++ [cgoTypes] = pre ++ t :: post →
        (∀ u ∈ pre, u.lookup key = none) → t.lookup key = some s →
        CgoConversionFor name (some typ) types = render s name ∧
        ∀ out, s.Execute "" name = .ok out →
          CgoConversionFor name (some typ) types = .ok out) := by
  constructor
  · intro pre post t s hsplit hpre ht
    have h : GoTypeFor (some typ) name types = render s name := by
      rw [GoTypeFor_eq typ key name types hkey, hsplit,
        rangeTypes_first key name pre post t s hpre ht]
    exact ⟨h, fun out hout => h.trans (render_of_execute hout)⟩
  · intro pre post t s hsplit hpre ht
    have h : CgoConversionFor name (some typ) types = render s name := by
      rw [CgoConversionFor_eq typ key name types hkey, hsplit,
        rangeTypes_first key name pre post t s hpre ht]
    exact ⟨h, fun out hout => h.trans (render_of_execute hout)⟩

/-- Witness of C1: with the tables `[userOther, userT1, userT2]` the type `float`
renders the entry of `userT1`, the first table holding its key, although `userT2`
and both built-in tables hold the key too. -/
theorem GoTypeFor_first_table_wins_witness :
    GoTypeFor (some floatT) "x" [userOther, userT1, userT2] = .ok "T1(x)" ∧
    CgoConversionFor "x" (some floatT) [userOther, userT1, userT2] = .ok "T1(x)" ∧
    userT2.lookup { Kind := Kind.Float, IsPointer := false } ≠ none ∧
    goTypes.lookup { Kind := Kind.Float, IsPointer := false } ≠ none ∧
    cgoTypes.lookup { Kind := Kind.Float, IsPointer := false } ≠ none :=
  have h := GoTypeFor_first_table_wins floatT { Kind := Kind.Float, IsPointer := false } "x"
    [userOther, userT1, userT2] rfl
  ⟨(h.1 [userOther] [userT2, goTypes] userT1 ⟨"t1", [.text "T1(", .dot, .text ")"]⟩ rfl
      (by decide) rfl).2 "T1(x)" rfl,
   (h.2 [userOther] [userT2, cgoTypes] userT1 ⟨"t1", [.text "T1(", .dot, .text ")"]⟩ rfl
      (by decide) rfl).2 "T1(x)" rfl,
   by decide, by decide, by decide⟩

/-- C2: for every non-nil type and every sequence of override tables, `GoTypeFor`
and `CgoConversionFor` panic with the unknown-type-key error exactly when no
override table and not the built-in table has an entry for the key of the type,
and an unknown-type-key panic always carries that key. -/
theorem GoTypeFor_unknown_type_key_iff (typ : CType) (name : String)
    (types : List (Table TypeKey)) :
    ∃ key, typeKey typ = .ok key ∧
      (GoTypeFor (some typ) name types = .error (Panic.unknownTypeKey key) ↔
        ∀ t ∈ types ++ [goTypes], t.lookup key = none) ∧
      (∀ k, GoTypeFor (some typ) name types = .error (Panic.unknownTypeKey k) → k = key) ∧
      (CgoConversionFor name (some typ) types = .error (Panic.unknownTypeKey key) ↔
        ∀ t ∈ types ++ [cgoTypes], t.lookup key = none) ∧
      (∀ k, CgoConversionFor name (some typ) types = .error (Panic.unknownTypeKey k) →
        k = key) := by
  obtain ⟨key, hkey⟩ := typeKey_total typ
  have aux : ∀ (all : List (Table TypeKey)) (k : TypeKey),
      (match rangeTypes key name all with
        | some r => r
        | none => .error (Panic.unknownTypeKey key)) = .error (Panic.unknownTypeKey k) →
      k = key ∧ ∀ t ∈ all, t.lookup key = none := by
    intro all k h
    cases hr : rangeTypes key name all with
    | none =>
      rw [hr] at h
      simp only [Except.error.injEq, Panic.unknownTypeKey.injEq] at h
      exact ⟨h.symm, (rangeTypes_eq_none key name all).1 hr⟩
    | some r =>
      rw [hr] at h
      simp only at h
      exact absurd (hr.trans (congrArg some h)) (rangeTypes_ne_unknownTypeKey key name all k)
  have back : ∀ (all : List (Table TypeKey)), (∀ t ∈ all, t.lookup key = none) →
      (match rangeTypes key name all with
        | some r => r
        | none => .error (Panic.unknownTypeKey key)) = .error (Panic.unknownTypeKey key) := by
    intro all h
    rw [(rangeTypes_eq_none key name all).2 h]
  refine ⟨key, hkey, ⟨?_, ?_⟩, ?_, ⟨?_, ?_⟩, ?_⟩
  · intro h
    rw [GoTypeFor_eq typ key name types hkey] at h
    exact (aux _ _ h).2
  · intro h
    rw [GoTypeFor_eq typ key name types hkey]
    exact back _ h
  · intro k h
    rw [GoTypeFor_eq typ key name types hkey] at h
    exact (aux _ _ h).1
  · intro h
    rw [CgoConversionFor_eq typ key name types hkey] at h
    exact (aux _ _ h).2
  · intro h
    rw [CgoConversionFor_eq typ key name types hkey]
    exact back _ h
  · intro k h
    rw [CgoConversionFor_eq typ key name types hkey] at h
    exact (aux _ _ h).1

/-! ## The key -/

/-- C3, refuted as stated: the array type `float[]` has kind `Array` and element
kind `Float`, yet its key is `(Array, isPointer=false)` and not
`(Float, isPointer=true)`; with the built-in table alone `GoTypeFor` panics on it
with that key, while `float*` resolves to `[]float32`. -/
theorem typeKey_array_not_decayed :
    floatArrayT.Kind = Kind.Array ∧ floatArrayT.Element = some floatT ∧
    floatT.Kind = Kind.Float ∧
    typeKey floatArrayT = .ok { Kind := Kind.Array, IsPointer := false } ∧
    typeKey floatArrayT ≠ .ok { Kind := Kind.Float, IsPointer := true } ∧
    GoTypeFor (some floatArrayT) "x" [] =
      .error (Panic.unknownTypeKey { Kind := Kind.Array, IsPointer := false }) ∧
    CgoConversionFor "x" (some floatArrayT) [] =
      .error (Panic.unknownTypeKey { Kind := Kind.Array, IsPointer := false }) ∧
    GoTypeFor (some floatPtrT) "x" [] = .ok "[]float32" := by
  refine ⟨rfl, rfl, rfl, rfl, ?_, rfl, rfl, rfl⟩
  intro h
  have h2 : typeKey floatArrayT = .ok { Kind := Kind.Array, IsPointer := false } := rfl
  rw [h2] at h
  simp at h

/-- C3, amended: the key decays one level of pointer indirection only. For every
type of kind `Ptr` the key is `(k, isPointer=true)` with `k` the kind of its
element; for every other type, arrays included, the key is
`(kind, isPointer=false)`; a pointer to a pointer yields `(Ptr, true)`. -/
theorem typeKey_decays_one_pointer (typ : CType) :
    (typ.Kind = Kind.Ptr →
      ∃ e, typ.Element = some e ∧
        typeKey typ = .ok { Kind := e.Kind, IsPointer := true }) ∧
    (typ.Kind ≠ Kind.Ptr →
      typeKey typ = .ok { Kind := typ.Kind, IsPointer := false }) ∧
    typeKey (CType.ptr (CType.ptr typ)) = .ok { Kind := Kind.Ptr, IsPointer := true } := by
  refine ⟨?_, typeKey_of_ne_ptr typ, typeKey_ptr _⟩
  intro hk
  cases typ with
  | ptr e => exact ⟨e, rfl, typeKey_ptr e⟩
  | array e => simp [CType.Kind] at hk
  | named k tag h => exact absurd hk (kind_named_ne_ptr k tag h)

/-- Witness of C3 (amended): `float*` has key `(Float, true)`, `float` has key
`(Float, false)` and `float**` has key `(Ptr, true)`. -/
theorem typeKey_decays_one_pointer_witness :
    (∃ e, floatPtrT.Element = some e ∧
      typeKey floatPtrT = .ok { Kind := e.Kind, IsPointer := true }) ∧
    typeKey floatT = .ok { Kind := Kind.Float, IsPointer := false } ∧
    typeKey floatPtrPtrT = .ok { Kind := Kind.Ptr, IsPointer := true } :=
  ⟨(typeKey_decays_one_pointer floatPtrT).1 rfl,
   (typeKey_decays_one_pointer floatT).2.1 (by decide),
   (typeKey_decays_one_pointer floatT).2.2⟩

/-! ## Enum lookups -/

theorem GoTypeForEnum_eq (dict : Nat → String) (typ : CType) (name : String)
    (types : List (Table String)) (hkind : typ.Kind = Kind.Enum) (htag : typ.Tag ≠ 0) :
    GoTypeForEnum dict (some typ) name types =
      match rangeTypes (dict typ.Tag) name types with
      | some r => r
      | none => .error (Panic.unknownType typ) := by
  simp [GoTypeForEnum, hkind, htag]

theorem CgoConversionForEnum_eq (dict : Nat → String) (typ : CType) (name : String)
    (types : List (Table String)) (hkind : typ.Kind = Kind.Enum) (htag : typ.Tag ≠ 0) :
    CgoConversionForEnum dict name (some typ) types =
      match rangeTypes (dict typ.Tag) name types with
      | some r => r
      | none => .error (Panic.unknownType typ) := by
  simp [CgoConversionForEnum, hkind, htag]

/-- C4: for every enum type with a non-zero tag whose name `n = dict tag` is a key
of a supplied table, `GoTypeForEnum` and `CgoConversionForEnum` return the
rendering, with `name` as the data, of the entry for `n` in the first supplied
table that holds `n`. -/
theorem GoTypeForEnum_first_table (dict : Nat → String) (typ : CType) (name : String)
    (pre post : List (Table String)) (t : Table String) (s : Template)
    (hkind : typ.Kind = Kind.Enum) (htag : typ.Tag ≠ 0)
    (hpre : ∀ u ∈ pre, u.lookup (dict typ.Tag) = none)
    (ht : t.lookup (dict typ.Tag) = some s) :
    GoTypeForEnum dict (some typ) name (pre ++ t :: post) = render s name ∧
    CgoConversionForEnum dict name (some typ) (pre ++ t :: post) = render s name ∧
    ∀ out, s.Execute "" name = .ok out →
      GoTypeForEnum dict (some typ) name (pre ++ t :: post) = .ok out ∧
      CgoConversionForEnum dict name (some typ) (pre ++ t :: post) = .ok out := by
  have h1 : GoTypeForEnum dict (some typ) name (pre ++ t :: post) = render s name := by
    rw [GoTypeForEnum_eq dict typ name _ hkind htag,
      rangeTypes_first _ name pre post t s hpre ht]
  have h2 : CgoConversionForEnum dict name (some typ) (pre ++ t :: post) = render s name := by
    rw [CgoConversionForEnum_eq dict typ name _ hkind htag,
      rangeTypes_first _ name pre post t s hpre ht]
  exact ⟨h1, h2, fun out hout =>
    ⟨h1.trans (render_of_execute hout), h2.trans (render_of_execute hout)⟩⟩

/-- Witness of C4: the enum tagged `Color` with the single table
`{"Color": template "ColorEnum"}` resolves to `ColorEnum`. -/
theorem GoTypeForEnum_first_table_witness :
    GoTypeForEnum colorDict (some colorEnumT) "x" [colorTable] = .ok "ColorEnum" ∧
    CgoConversionForEnum colorDict "x" (some colorEnumT) [colorTable] = .ok "ColorEnum" :=
  (GoTypeForEnum_first_table colorDict colorEnumT "x" [] [] colorTable
    ⟨"ColorEnum", [.text "ColorEnum"]⟩ rfl (by decide) (by simp) rfl).2.2 "ColorEnum" rfl

/-- C5: an enum type with tag `0` makes `GoTypeForEnum` and `CgoConversionForEnum`
panic whatever tables are supplied, and so does every enum type for whose tag
name no supplied table has an entry, in particular when no table is supplied:
there is no built-in table for enums. -/
theorem GoTypeForEnum_unresolved (dict : Nat → String) (typ : CType) (name : String)
    (types : List (Table String)) (hkind : typ.Kind = Kind.Enum)
    (h : typ.Tag = 0 ∨ types = [] ∨ ∀ t ∈ types, t.lookup (dict typ.Tag) = none) :
    GoTypeForEnum dict (some typ) name types = .error (Panic.unknownType typ) ∧
    CgoConversionForEnum dict name (some typ) types = .error (Panic.unknownType typ) := by
  by_cases htag : typ.Tag = 0
  · simp [GoTypeForEnum, CgoConversionForEnum, hkind, htag]
  · have hnone : ∀ t ∈ types, t.lookup (dict typ.Tag) = none := by
      rcases h with h | h | h
      · exact absurd h htag
      · subst h
        simp
      · exact h
    rw [GoTypeForEnum_eq dict typ name _ hkind htag,
      CgoConversionForEnum_eq dict typ name _ hkind htag,
      (rangeTypes_eq_none _ name types).2 hnone]
    exact ⟨rfl, rfl⟩

/-- Witness of C5: the anonymous enum fails although a supplied table has an entry
keyed by the empty string, the text of id `0` in the dictionary. -/
theorem GoTypeForEnum_unresolved_witness :
    emptyKeyTable.lookup (colorDict anonEnumT.Tag) ≠ none ∧
    GoTypeForEnum colorDict (some anonEnumT) "x" [emptyKeyTable] =
      .error (Panic.unknownType anonEnumT) ∧
    CgoConversionForEnum colorDict "x" (some anonEnumT) [emptyKeyTable] =
      .error (Panic.unknownType anonEnumT) :=
  ⟨by decide,
   GoTypeForEnum_unresolved colorDict anonEnumT "x" [emptyKeyTable] rfl (Or.inl rfl)⟩

/-- C6: for every non-nil type whose kind is not `Enum`, `GoTypeForEnum` and
`CgoConversionForEnum` panic with the invalid-type error, for every name and
every sequence of supplied tables. -/
theorem GoTypeForEnum_invalid_type (dict : Nat → String) (typ : CType) (name : String)
    (types : List (Table String)) (hkind : typ.Kind ≠ Kind.Enum) :
    GoTypeForEnum dict (some typ) name types = .error (Panic.invalidType typ) ∧
    CgoConversionForEnum dict name (some typ) types = .error (Panic.invalidType typ) := by
  simp [GoTypeForEnum, CgoConversionForEnum, hkind]

/-- Witness of C6: `float` is rejected although the supplied table has entries. -/
theorem GoTypeForEnum_invalid_type_witness :
    GoTypeForEnum colorDict (some floatT) "x" [emptyKeyTable] =
      .error (Panic.invalidType floatT) ∧
    CgoConversionForEnum colorDict "x" (some floatT) [emptyKeyTable] =
      .error (Panic.invalidType floatT) :=
  GoTypeForEnum_invalid_type colorDict floatT "x" [emptyKeyTable] (by decide)

/-- C7: for a nil type the four lookups return the sentinel `<nil>` and do not
panic, for every name and every sequence of supplied tables. -/
theorem nil_type_sentinel (dict : Nat → String) (name : String)
    (types : List (Table TypeKey)) (enumTypes : List (Table String)) :
    GoTypeFor none name types = .ok "<nil>" ∧
    CgoConversionFor name none types = .ok "<nil>" ∧
    GoTypeForEnum dict none name enumTypes = .ok "<nil>" ∧
    CgoConversionForEnum dict name none enumTypes = .ok "<nil>" :=
  ⟨rfl, rfl, rfl, rfl⟩

/-! ## The built-in tables against their doc comments -/

theorem GoTypeFor_builtin (typ : CType) (key : TypeKey) (name : String)
    (hkey : typeKey typ = .ok key) :
    GoTypeFor (some typ) name [] =
      match goTypes.lookup key with
      | some s => render s name
      | none => .error (Panic.unknownTypeKey key) := by
  simp only [GoTypeFor, hkey, rangeTypes]

theorem CgoConversionFor_builtin (typ : CType) (key : TypeKey) (name : String)
    (hkey : typeKey typ = .ok key) :
    CgoConversionFor name (some typ) [] =
      match cgoTypes.lookup key with
      | some s => render s name
      | none => .error (Panic.unknownTypeKey key) := by
  simp only [CgoConversionFor, hkey, rangeTypes]

/-- C8, evaluated on the code: a type of kind `Undefined` has the key
`(Undefined, isPointer=false)`, which is none of the eight keys of the doc comment
of `GoTypeFor`, yet with no user-provided table `GoTypeFor` returns `<undefined>`
for it instead of panicking; on every other key the table `goTypes` and the
documented mapping agree. -/
theorem GoTypeFor_undefined_not_documented :
    typeKey undefinedT = .ok { Kind := Kind.Undefined, IsPointer := false } ∧
    goTypesDoc.lookup { Kind := Kind.Undefined, IsPointer := false } = none ∧
    (∀ name, GoTypeFor (some undefinedT) name [] = .ok "<undefined>") ∧
    (∀ key : TypeKey, key ≠ { Kind := Kind.Undefined, IsPointer := false } →
      (goTypes.lookup key).map (fun s => s.tree) =
        (goTypesDoc.lookup key).map (fun str => [Node.text str])) := by
  refine ⟨rfl, by decide, ?_, ?_⟩
  · intro name
    rw [GoTypeFor_builtin undefinedT _ name rfl]
    exact render_text _ _ _
  · rintro ⟨b, k⟩ hne
    cases b <;> cases k <;> first | rfl | exact absurd rfl hne

/-- C9, evaluated on the code: with no user-provided table `CgoConversionFor`
renders `float*` as `(*C.float)(&NAME[0])`, `double*` as `(*C.double)(&NAME[0])`
and the two complex value kinds as `unsafe.Pointer(NAME)`, where the doc comment
lists `(*C.float)(NAME)`, `(*C.double)(NAME)` and `unsafe.Pointer(&NAME)`; on every
other key the table `cgoTypes` and the documented mapping agree. -/
theorem CgoConversionFor_differs_from_doc :
    (∀ name, CgoConversionFor name (some floatPtrT) [] =
      .ok ("(*C.float)(&" ++ name ++ "[0])")) ∧
    (∀ name, CgoConversionFor name (some doublePtrT) [] =
      .ok ("(*C.double)(&" ++ name ++ "[0])")) ∧
    (∀ name, CgoConversionFor name (some floatComplexT) [] =
      .ok ("unsafe.Pointer(" ++ name ++ ")")) ∧
    (∀ name, CgoConversionFor name (some doubleComplexT) [] =
      .ok ("unsafe.Pointer(" ++ name ++ ")")) ∧
    CgoConversionFor "x" (some floatPtrT) [] ≠ .ok "(*C.float)(x)" ∧
    CgoConversionFor "x" (some doublePtrT) [] ≠ .ok "(*C.double)(x)" ∧
    CgoConversionFor "x" (some floatComplexT) [] ≠ .ok "unsafe.Pointer(&x)" ∧
    CgoConversionFor "x" (some doubleComplexT) [] ≠ .ok "unsafe.Pointer(&x)" ∧
    (∀ key : TypeKey,
      key ∉ [({ Kind := Kind.Float, IsPointer := true } : TypeKey),
        { Kind := Kind.Double, IsPointer := true },
        { Kind := Kind.FloatComplex, IsPointer := false },
        { Kind := Kind.DoubleComplex, IsPointer := false }] →
      (cgoTypes.lookup key).map (fun s => s.tree) = cgoTypesDoc.lookup key) := by
  refine ⟨?_, ?_, ?_, ?_, ?_, ?_, ?_, ?_, ?_⟩
  · intro name
    rw [CgoConversionFor_builtin floatPtrT _ name rfl]
    exact render_text_dot_text _ _ _ _
  · intro name
    rw [CgoConversionFor_builtin doublePtrT _ name rfl]
    exact render_text_dot_text _ _ _ _
  · intro name
    rw [CgoConversionFor_builtin floatComplexT _ name rfl]
    exact render_text_dot_text _ _ _ _
  · intro name
    rw [CgoConversionFor_builtin doubleComplexT _ name rfl]
    exact render_text_dot_text _ _ _ _
  · intro h
    have e : CgoConversionFor "x" (some floatPtrT) [] = .ok "(*C.float)(&x[0])" := rfl
    exact absurd (Except.ok.inj (e.symm.trans h)) (by decide)
  · intro h
    have e : CgoConversionFor "x" (some doublePtrT) [] = .ok "(*C.double)(&x[0])" := rfl
    exact absurd (Except.ok.inj (e.symm.trans h)) (by decide)
  · intro h
    have e : CgoConversionFor "x" (some floatComplexT) [] = .ok "unsafe.Pointer(x)" := rfl
    exact absurd (Except.ok.inj (e.symm.trans h)) (by decide)
  · intro h
    have e : CgoConversionFor "x" (some doubleComplexT) [] = .ok "unsafe.Pointer(x)" := rfl
    exact absurd (Except.ok.inj (e.symm.trans h)) (by decide)
  · rintro ⟨b, k⟩ hne
    cases b <;> cases k <;> first | rfl | exact absurd (by decide) hne

/-! ## The built-in host types of the kinds of the model -/

/-- C10: for every kind of the platform type model and every type whose key has
that kind, `GoTypeFor` with the built-in table alone succeeds exactly when
`goTypes` has an entry for the key, and then returns that entry: `int`, `float32`,
`[]float32` for a pointer to `float`, `float64`, `[]float64` for a pointer to
`double`, `bool`, `complex64`, `complex128`; on every other key of a model kind,
in particular every pointer key other than the two above, it panics with the
unknown-type-key error carrying the key. -/
theorem GoTypeFor_builtin_on_model (p i : Nat) (typ : CType) (key : TypeKey) (name : String)
    (hkey : typeKey typ = .ok key)
    (hk : key.Kind ∈ (model p i).Items.map Prod.fst) :
    ((∃ out, GoTypeFor (some typ) name [] = .ok out) ↔ (goTypes.lookup key).isSome = true) ∧
    GoTypeFor (some typ) name [] =
      (match key with
        | ⟨false, Kind.Int⟩ => .ok "int"
        | ⟨false, Kind.Float⟩ => .ok "float32"
        | ⟨true, Kind.Float⟩ => .ok "[]float32"
        | ⟨false, Kind.Double⟩ => .ok "float64"
        | ⟨true, Kind.Double⟩ => .ok "[]float64"
        | ⟨false, Kind.Bool⟩ => .ok "bool"
        | ⟨false, Kind.FloatComplex⟩ => .ok "complex64"
        | ⟨false, Kind.DoubleComplex⟩ => .ok "complex128"
        | _ => .error (Panic.unknownTypeKey key)) ∧
    (key.IsPointer = true → key.Kind ≠ Kind.Float → key.Kind ≠ Kind.Double →
      GoTypeFor (some typ) name [] = .error (Panic.unknownTypeKey key)) := by
  obtain ⟨b, k⟩ := key
  have hg := GoTypeFor_builtin typ _ name hkey
  cases b <;> cases k <;> simp [model] at hk <;>
    first
    | exact ⟨⟨fun _ => rfl, fun _ => ⟨_, hg.trans (render_text _ _ _)⟩⟩,
        hg.trans (render_text _ _ _), fun h => Bool.noConfusion h⟩
    | exact ⟨⟨fun _ => rfl, fun _ => ⟨_, hg.trans (render_text _ _ _)⟩⟩,
        hg.trans (render_text _ _ _), fun _ h1 _ => absurd rfl h1⟩
    | exact ⟨⟨fun _ => rfl, fun _ => ⟨_, hg.trans (render_text _ _ _)⟩⟩,
        hg.trans (render_text _ _ _), fun _ _ h2 => absurd rfl h2⟩
    | exact ⟨⟨fun ⟨_, ho⟩ => Except.noConfusion (hg.symm.trans ho),
          fun h => Bool.noConfusion h⟩,
        hg, fun _ _ _ => hg⟩

/-- Witness of C10: `float*`, whose key has the model kind `Float`, resolves to
`[]float32`, and `int*`, whose key has the model kind `Int`, panics. -/
theorem GoTypeFor_builtin_on_model_witness :
    GoTypeFor (some floatPtrT) "x" [] = .ok "[]float32" ∧
    GoTypeFor (some (CType.ptr (CType.named Kind.Int 0 rfl))) "x" [] =
      .error (Panic.unknownTypeKey { Kind := Kind.Int, IsPointer := true }) :=
  ⟨(GoTypeFor_builtin_on_model 8 8 floatPtrT { Kind := Kind.Float, IsPointer := true } "x" rfl
      (by decide)).2.1,
   (GoTypeFor_builtin_on_model 8 8 (CType.ptr (CType.named Kind.Int 0 rfl))
      { Kind := Kind.Int, IsPointer := true } "x" rfl (by decide)).2.2 rfl (by decide)
      (by decide)⟩

/-! ## The platform type model -/

/-- C14: for every pointer width `p` and native integer width `i` the platform
type model is a table of exactly 21 distinct kinds with the stated
`Size, Align, StructAlign` values, and no other kind has an entry. -/
theorem model_items (p i : Nat) :
    (model p i).Items.length = 21 ∧
    ((model p i).Items.map Prod.fst).Nodup ∧
    ∀ k : Kind, (model p i).Items.lookup k =
      match k with
      | Kind.Ptr | Kind.UintPtr => some ⟨p, p, p⟩
      | Kind.Void => some ⟨0, 1, 1⟩
      | Kind.Char | Kind.SChar | Kind.UChar | Kind.Bool => some ⟨1, 1, 1⟩
      | Kind.Short | Kind.UShort => some ⟨2, 2, 2⟩
      | Kind.Int | Kind.UInt | Kind.Float => some ⟨4, 4, 4⟩
      | Kind.Long | Kind.ULong => some ⟨i, i, i⟩
      | Kind.LongLong | Kind.ULongLong | Kind.Double | Kind.LongDouble
      | Kind.FloatComplex => some ⟨8, 8, 8⟩
      | Kind.DoubleComplex | Kind.LongDoubleComplex => some ⟨16, 16, 16⟩
      | _ => none := by
  refine ⟨rfl, by simp [model], ?_⟩
  intro k
  cases k <;> rfl

/-! ## The two enum lookups -/

/-- C19: `GoTypeForEnum` and `CgoConversionForEnum` are the same function up to
the order of their arguments: for every type, nil or not, every name and every
sequence of tables both panic with the same value or both return the same
string. -/
theorem GoTypeForEnum_eq_CgoConversionForEnum (dict : Nat → String) (typ : Option CType)
    (name : String) (types : List (Table String)) :
    GoTypeForEnum dict typ name types = CgoConversionForEnum dict name typ types := by
  cases typ with
  | none => rfl
  | some t => simp only [GoTypeForEnum, CgoConversionForEnum]

/-! ## The order `byPosition` and the sort -/

theorem byPosition_Less_iff (fset : Int → Position) (a b : Declaration) :
    byPosition.Less fset a b = true ↔
      (a.Position fset).Filename < (b.Position fset).Filename ∨
      ((a.Position fset).Filename = (b.Position fset).Filename ∧
        (a.Position fset).Line < (b.Position fset).Line) := by
  by_cases h : (a.Position fset).Filename = (b.Position fset).Filename
  · simp [byPosition.Less, h]
  · simp [byPosition.Less, h]

theorem byPosition_Less_eq_false_iff (fset : Int → Position) (a b : Declaration) :
    byPosition.Less fset a b = false ↔
      (b.Position fset).Filename < (a.Position fset).Filename ∨
      ((b.Position fset).Filename = (a.Position fset).Filename ∧
        (b.Position fset).Line ≤ (a.Position fset).Line) := by
  rw [← Bool.not_eq_true, byPosition_Less_iff]
  constructor
  · intro h
    obtain ⟨h1, h2⟩ := not_or.mp h
    rcases lt_or_eq_of_le (not_lt.mp h1) with h3 | h3
    · exact Or.inl h3
    · exact Or.inr ⟨h3, not_lt.mp (fun hl => h2 ⟨h3.symm, hl⟩)⟩
  · rintro (h | ⟨h1, h2⟩) (hc | ⟨hc1, hc2⟩)
    · exact lt_asymm h hc
    · exact (ne_of_gt h) hc1
    · exact (ne_of_lt hc) h1.symm
    · exact not_lt.mpr h2 hc2

theorem byPosition_Less_asymm (fset : Int → Position) (a b : Declaration)
    (h : byPosition.Less fset a b = true) : byPosition.Less fset b a = false := by
  rw [byPosition_Less_eq_false_iff]
  rcases (byPosition_Less_iff fset a b).1 h with h1 | ⟨h1, h2⟩
  · exact Or.inl h1
  · exact Or.inr ⟨h1, le_of_lt h2⟩

theorem byPosition_Less_trans (fset : Int → Position) (a b c : Declaration)
    (hab : byPosition.Less fset a b = true) (hbc : byPosition.Less fset b c = true) :
    byPosition.Less fset a c = true := by
  rw [byPosition_Less_iff] at *
  rcases hab with h1 | ⟨h1, h2⟩ <;> rcases hbc with h3 | ⟨h3, h4⟩
  · exact Or.inl (lt_trans h1 h3)
  · exact Or.inl (h3 ▸ h1)
  · exact Or.inl (h1 ▸ h3)
  · exact Or.inr ⟨h1.trans h3, lt_trans h2 h4⟩

/-- Negative transitivity: what may precede composes. -/
theorem byPosition_notLess_trans (fset : Int → Position) (a b c : Declaration)
    (hba : byPosition.Less fset b a = false) (hcb : byPosition.Less fset c b = false) :
    byPosition.Less fset c a = false := by
  rw [byPosition_Less_eq_false_iff] at *
  rcases hba with h1 | ⟨h1, h2⟩ <;> rcases hcb with h3 | ⟨h3, h4⟩
  · exact Or.inl (lt_trans h1 h3)
  · exact Or.inl (h3 ▸ h1)
  · exact Or.inl (h1 ▸ h3)
  · exact Or.inr ⟨h1.trans h3, le_trans h2 h4⟩

theorem insertBack_perm {α : Type} (less : α → α → Bool) (x : α) (l : List α) :
    (insertBack less x l).Perm (x :: l) := by
  induction l with
  | nil => exact List.Perm.refl _
  | cons y rest ih =>
    by_cases h : less x y = true
    · simp only [insertBack, h, if_true]
      exact (List.Perm.cons y ih).trans (List.Perm.swap x y rest)
    · simp only [insertBack, h, Bool.false_eq_true, if_false]
      exact List.Perm.refl _

theorem foldl_insertBack_perm {α : Type} (less : α → α → Bool) (data acc : List α) :
    (data.foldl (fun sorted x => insertBack less x sorted) acc).Perm (data ++ acc) := by
  induction data generalizing acc with
  | nil => exact List.Perm.refl _
  | cons x rest ih =>
    simp only [List.foldl_cons, List.cons_append]
    refine (ih _).trans ?_
    refine (List.Perm.append_left rest (insertBack_perm less x acc)).trans ?_
    exact List.perm_middle

theorem sortSort_perm {α : Type} (less : α → α → Bool) (data : List α) :
    (sortSort less data).Perm data := by
  unfold sortSort
  refine (List.reverse_perm _).trans ?_
  simpa using foldl_insertBack_perm less data []

theorem insertBack_head {α : Type} (less : α → α → Bool) (x : α) (l : List α) :
    ∀ h ∈ (insertBack less x l).head?, h = x ∨ h ∈ l.head? := by
  cases l with
  | nil => simp [insertBack]
  | cons y rest =>
    by_cases hl : less x y = true
    · simp [insertBack, hl]
    · simp [insertBack, hl]

theorem insertBack_chain {α : Type} (less : α → α → Bool)
    (hasymm : ∀ a b, less a b = true → less b a = false) (x : α) (l : List α)
    (hl : List.Chain' (fun y z => less y z = false) l) :
    List.Chain' (fun y z => less y z = false) (insertBack less x l) := by
  induction l with
  | nil => simp [insertBack]
  | cons y rest ih =>
    by_cases hxy : less x y = true
    · simp only [insertBack, hxy, if_true]
      rw [List.chain'_cons'] at hl ⊢
      refine ⟨?_, ih hl.2⟩
      intro h hh
      rcases insertBack_head less x rest h hh with rfl | hmem
      · exact hasymm _ _ hxy
      · exact hl.1 h hmem
    · simp only [insertBack, hxy, Bool.false_eq_true, if_false]
      rw [List.chain'_cons']
      refine ⟨?_, hl⟩
      intro h hh
      simp only [List.head?_cons, Option.mem_def, Option.some.injEq] at hh
      subst hh
      simpa using hxy

theorem foldl_insertBack_chain {α : Type} (less : α → α → Bool)
    (hasymm : ∀ a b, less a b = true → less b a = false) (data acc : List α)
    (hacc : List.Chain' (fun y z => less y z = false) acc) :
    List.Chain' (fun y z => less y z = false)
      (data.foldl (fun sorted x => insertBack less x sorted) acc) := by
  induction data generalizing acc with
  | nil => exact hacc
  | cons x rest ih =>
    simp only [List.foldl_cons]
    exact ih _ (insertBack_chain less hasymm x acc hacc)

/-- Every element of the sorted slice is not less than its predecessor. -/
theorem sortSort_chain {α : Type} (less : α → α → Bool)
    (hasymm : ∀ a b, less a b = true → less b a = false) (data : List α) :
    List.Chain' (fun a b => less b a = false) (sortSort less data) := by
  unfold sortSort
  rw [List.chain'_reverse]
  exact foldl_insertBack_chain less hasymm data [] List.chain'_nil

theorem declarationsLoop_eq (dict : Nat → String) (items : List ExternalDeclaration)
    (decls : List Declaration) :
    declarationsLoop dict items decls = decls ++ items.filterMap (declarationOf dict) := by
  induction items generalizing decls with
  | nil => simp [declarationsLoop]
  | cons t rest ih =>
    cases h : declarationOf dict t with
    | none => simp [declarationsLoop, h, ih]
    | some d => simp [declarationsLoop, h, ih]

theorem Declarations_eq
    (hostConfig : Except String (String × List String × List String))
    (parse : String → List String → Model → List String → List String →
      Except String (List ExternalDeclaration))
    (p i : Nat) (fset : Int → Position) (dict : Nat → String) (paths : List String)
    (cfg : String × List String × List String) (items : List ExternalDeclaration)
    (hcfg : hostConfig = .ok cfg)
    (hparse : parse (cfg.1 ++ builtinDefines) paths (model p i) cfg.2.1 cfg.2.2 = .ok items) :
    Declarations hostConfig parse p i fset dict paths =
      .ok (sortSort (byPosition.Less fset) (items.filterMap (declarationOf dict))) := by
  obtain ⟨predefined, includePaths, sysIncludePaths⟩ := cfg
  subst hcfg
  simp only [Declarations]
  simp only at hparse
  rw [hparse]
  simp [declarationsLoop_eq]

theorem byPosition_incomparable_iff (fset : Int → Position) (a b : Declaration) :
    (byPosition.Less fset a b = false ∧ byPosition.Less fset b a = false) ↔
      ((a.Position fset).Filename = (b.Position fset).Filename ∧
        (a.Position fset).Line = (b.Position fset).Line) := by
  rw [byPosition_Less_eq_false_iff, byPosition_Less_eq_false_iff]
  constructor
  · rintro ⟨h1 | ⟨h1, h2⟩, h3 | ⟨h3, h4⟩⟩
    · exact absurd h3 (lt_asymm h1)
    · exact absurd h3.symm (ne_of_lt h1)
    · exact absurd h1.symm (ne_of_lt h3)
    · exact ⟨h3, le_antisymm h4 h2⟩
  · rintro ⟨h1, h2⟩
    exact ⟨Or.inr ⟨h1.symm, le_of_eq h2.symm⟩, Or.inr ⟨h1, le_of_eq h2⟩⟩

theorem eq_of_perm_of_pairwise {α : Type} (R : α → α → Prop) (l1 l2 : List α)
    (hperm : l1.Perm l2)
    (hanti : ∀ a ∈ l1, ∀ b ∈ l1, R a b → R b a → a = b)
    (h1 : l1.Pairwise R) (h2 : l2.Pairwise R) : l1 = l2 := by
  induction l1 generalizing l2 with
  | nil => exact hperm.nil_eq
  | cons a l1 ih =>
    cases l2 with
    | nil => exact absurd hperm.length_eq (by simp)
    | cons b l2 =>
      rw [List.pairwise_cons] at h1 h2
      have hab : a = b := by
        have ha : a ∈ b :: l2 := hperm.subset (List.mem_cons_self _ _)
        have hb : b ∈ a :: l1 := hperm.symm.subset (List.mem_cons_self _ _)
        rcases List.mem_cons.1 ha with h | h
        · exact h
        · rcases List.mem_cons.1 hb with h' | h'
          · exact h'.symm
          · exact hanti a (List.mem_cons_self _ _) b (List.mem_cons_of_mem _ h')
              (h1.1 b h') (h2.1 a h)
      subst hab
      have hp : l1.Perm l2 := hperm.cons_inv
      rw [ih l2 hp (fun x hx y hy => hanti x (List.mem_cons_of_mem _ hx) y
        (List.mem_cons_of_mem _ hy)) h1.2 h2.2]

theorem sortSort_byPosition_pairwise (fset : Int → Position) (data : List Declaration) :
    (sortSort (byPosition.Less fset) data).Pairwise
      (fun a b => byPosition.Less fset b a = false) := by
  haveI : IsTrans Declaration (fun a b => byPosition.Less fset b a = false) :=
    ⟨fun a b c hab hbc => byPosition_notLess_trans fset a b c hab hbc⟩
  exact List.chain'_iff_pairwise.1
    (sortSort_chain (byPosition.Less fset) (byPosition_Less_asymm fset) data)

/-! ## The declaration extractor -/

theorem initDeclarators_ne_nil (idl : InitDeclaratorList) : initDeclarators idl ≠ [] := by
  cases idl <;> simp [initDeclarators]

/-- C11: an item of the parsed translation unit yields a Declaration exactly when
the four conditions of the filtering policy hold (it is a declaration, it
declares exactly one identifier, its declarator has no initializer, the kind of
its resolved type is `Function`), that Declaration carries the position, name,
result type, parameter list and variadic flag of the declarator, and the result
of `Declarations` holds exactly one Declaration for every accepted item and
nothing else. -/
theorem Declarations_filter
    (hostConfig : Except String (String × List String × List String))
    (parse : String → List String → Model → List String → List String →
      Except String (List ExternalDeclaration))
    (p i : Nat) (fset : Int → Position) (dict : Nat → String) (paths : List String)
    (cfg : String × List String × List String) (items : List ExternalDeclaration)
    (hcfg : hostConfig = .ok cfg)
    (hparse : parse (cfg.1 ++ builtinDefines) paths (model p i) cfg.2.1 cfg.2.2 = .ok items) :
    (∀ (t : ExternalDeclaration) (d : Declaration), declarationOf dict t = some d ↔
      (isDeclaration t = true ∧ ∃ id, declarators t = [id] ∧ hasInitializer id = false ∧
        id.Declarator.Typ.Kind = Kind.Function ∧ d = describe dict id.Declarator)) ∧
    ∃ ds, Declarations hostConfig parse p i fset dict paths = .ok ds ∧
      ds.Perm (items.filterMap (declarationOf dict)) := by
  refine ⟨?_, _, Declarations_eq hostConfig parse p i fset dict paths cfg items hcfg hparse,
    sortSort_perm _ _⟩
  intro t d
  cases t with
  | functionDefinition dcl => simp [declarationOf, isDeclaration]
  | assembler => simp [declarationOf, isDeclaration]
  | empty => simp [declarationOf, isDeclaration]
  | declaration cd =>
    cases cd with
    | staticAssert => simp [declarationOf, declarators]
    | specifiers init =>
      cases init with
      | none => simp [declarationOf, declarators]
      | some idl =>
        cases idl with
        | more id next =>
          simp [declarationOf, declarators, initDeclarators, InitDeclaratorList.InitDeclaratorList,
            initDeclarators_ne_nil]
        | last id =>
          cases id with
          | assigned dcl =>
            simp [declarationOf, declarators, initDeclarators, isDeclaration,
              InitDeclaratorList.InitDeclaratorList, InitDeclaratorList.InitDeclarator,
              InitDeclarator.Case, hasInitializer]
          | plain dcl =>
            by_cases hk : dcl.Typ.Kind = Kind.Function
            · have h1 : declarationOf dict
                  (.declaration (.specifiers (some (.last (.plain dcl))))) =
                  some (describe dict dcl) := by
                simp [declarationOf, InitDeclaratorList.InitDeclaratorList,
                  InitDeclaratorList.InitDeclarator, InitDeclarator.Case,
                  InitDeclarator.Declarator, hk, describe]
              rw [h1]
              constructor
              · intro h
                exact ⟨rfl, .plain dcl, rfl, rfl, hk, (Option.some.inj h).symm⟩
              · rintro ⟨_, id, hid, _, _, hd⟩
                have hid2 : InitDeclarator.plain dcl = id := by
                  simpa [declarators, initDeclarators] using hid
                subst hid2
                rw [hd]
                rfl
            · simp [declarationOf, declarators, initDeclarators, isDeclaration,
                InitDeclaratorList.InitDeclaratorList, InitDeclaratorList.InitDeclarator,
                InitDeclarator.Case, InitDeclarator.Declarator, hasInitializer, hk]

/-- Witness of C11: the parsed set `int f(int a, int b); int x, y;
int g(void) = something; int h(int);` yields exactly the declarations of `f` and
of `h`. -/
theorem Declarations_filter_witness :
    (∃ ds, Declarations sampleHostConfig (sampleParse sampleItems) 8 8 sampleFset sampleDict
        ["a.h"] = .ok ds ∧
      ds.Perm (sampleItems.filterMap (declarationOf sampleDict))) ∧
    Declarations sampleHostConfig (sampleParse sampleItems) 8 8 sampleFset sampleDict ["a.h"] =
      .ok [describe sampleDict declaratorF, describe sampleDict declaratorH] ∧
    (describe sampleDict declaratorF).Name = "f" ∧
    (describe sampleDict declaratorH).Name = "h" :=
  ⟨(Declarations_filter sampleHostConfig (sampleParse sampleItems) 8 8 sampleFset sampleDict
      ["a.h"] ("", [], []) sampleItems rfl rfl).2, rfl, rfl, rfl⟩

theorem ah_lt_bh : "a.h" < "b.h" := by
  rw [String.lt_iff_toList_lt]
  decide

theorem twoFiles_Less_G_F : byPosition.Less twoFilesFset declG declF = true :=
  (byPosition_Less_iff twoFilesFset declG declF).2 (Or.inl ah_lt_bh)

theorem twoFiles_sort_F_G :
    sortSort (byPosition.Less twoFilesFset) [declF, declG] = [declG, declF] := by
  simp [sortSort, insertBack, twoFiles_Less_G_F]

/-- C12: the sequence returned by `Declarations` is a permutation of the accepted
declarations and is sorted by file path, then line: in every adjacent pair `(a, b)`
of the result the file path of `a` is lexically smaller than that of `b`, or the
paths are equal and the line of `a` is not greater than the line of `b`. -/
theorem Declarations_sorted
    (hostConfig : Except String (String × List String × List String))
    (parse : String → List String → Model → List String → List String →
      Except String (List ExternalDeclaration))
    (p i : Nat) (fset : Int → Position) (dict : Nat → String) (paths : List String)
    (cfg : String × List String × List String) (items : List ExternalDeclaration)
    (hcfg : hostConfig = .ok cfg)
    (hparse : parse (cfg.1 ++ builtinDefines) paths (model p i) cfg.2.1 cfg.2.2 = .ok items) :
    ∃ ds, Declarations hostConfig parse p i fset dict paths = .ok ds ∧
      ds.Perm (items.filterMap (declarationOf dict)) ∧
      List.Chain' (fun a b =>
        (a.Position fset).Filename < (b.Position fset).Filename ∨
        ((a.Position fset).Filename = (b.Position fset).Filename ∧
          (a.Position fset).Line ≤ (b.Position fset).Line)) ds := by
  refine ⟨_, Declarations_eq hostConfig parse p i fset dict paths cfg items hcfg hparse,
    sortSort_perm _ _, ?_⟩
  refine List.Chain'.imp ?_
    (sortSort_chain (byPosition.Less fset) (byPosition_Less_asymm fset) _)
  intro a b h
  exact (byPosition_Less_eq_false_iff fset b a).1 h

/-- Witness of C12: the parser emits a declaration at line 5 of `b.h` before one
at line 100 of `a.h`; the result holds the one of `a.h` first. -/
theorem Declarations_sorted_witness :
    (∃ ds, Declarations sampleHostConfig (sampleParse [functionItem 1 10, functionItem 2 13])
        8 8 twoFilesFset sampleDict ["b.h", "a.h"] = .ok ds ∧
      ds.Perm ([functionItem 1 10, functionItem 2 13].filterMap (declarationOf sampleDict)) ∧
      List.Chain' (fun a b =>
        (a.Position twoFilesFset).Filename < (b.Position twoFilesFset).Filename ∨
        ((a.Position twoFilesFset).Filename = (b.Position twoFilesFset).Filename ∧
          (a.Position twoFilesFset).Line ≤ (b.Position twoFilesFset).Line)) ds) ∧
    Declarations sampleHostConfig (sampleParse [functionItem 1 10, functionItem 2 13])
        8 8 twoFilesFset sampleDict ["b.h", "a.h"] = .ok [declG, declF] ∧
    declG.Position twoFilesFset = ⟨"a.h", 0, 100, 1⟩ ∧
    declF.Position twoFilesFset = ⟨"b.h", 0, 5, 1⟩ :=
  ⟨Declarations_sorted sampleHostConfig (sampleParse [functionItem 1 10, functionItem 2 13])
      8 8 twoFilesFset sampleDict ["b.h", "a.h"] ("", [], []) _ rfl rfl,
   (Declarations_eq sampleHostConfig (sampleParse [functionItem 1 10, functionItem 2 13])
      8 8 twoFilesFset sampleDict ["b.h", "a.h"] ("", [], []) _ rfl rfl).trans
      (congrArg Except.ok twoFiles_sort_F_G),
   rfl, rfl⟩

/-- C13, refuted as stated: `int f(void); int g(void);` written on one line of
`a.h` gives two distinct declarations with the same file and line. The two
emission orders are permutations of each other, yet sorting keeps each order, so
the results of `Declarations` differ. -/
theorem sortSort_keeps_order_of_ties :
    [declF, declG].Perm [declG, declF] ∧
    byPosition.Less oneLineFset declF declG = false ∧
    byPosition.Less oneLineFset declG declF = false ∧
    (sortSort (byPosition.Less oneLineFset) [declF, declG]).map (fun d => d.Name) =
      ["f", "g"] ∧
    (sortSort (byPosition.Less oneLineFset) [declG, declF]).map (fun d => d.Name) =
      ["g", "f"] ∧
    sortSort (byPosition.Less oneLineFset) [declF, declG] ≠
      sortSort (byPosition.Less oneLineFset) [declG, declF] ∧
    (match Declarations sampleHostConfig (sampleParse [functionItem 1 10, functionItem 2 13])
        8 8 oneLineFset sampleDict ["a.h"] with
      | .ok ds => ds.map (fun d => d.Name)
      | .error _ => []) = ["f", "g"] ∧
    (match Declarations sampleHostConfig (sampleParse [functionItem 2 13, functionItem 1 10])
        8 8 oneLineFset sampleDict ["a.h"] with
      | .ok ds => ds.map (fun d => d.Name)
      | .error _ => []) = ["g", "f"] := by
  refine ⟨List.Perm.swap _ _ _, by decide, by decide, by decide, by decide, ?_,
    by decide, by decide⟩
  intro h
  have h2 := congrArg (fun l => l.map (fun d => d.Name)) h
  revert h2
  decide

/-- C13, amended: for every two emission orders of the same collection of
declarations in which no two distinct declarations share file and line, sorting by
`byPosition` yields the identical sequence. -/
theorem sortSort_order_independent (fset : Int → Position) (l1 l2 : List Declaration)
    (hperm : l1.Perm l2)
    (hties : ∀ a ∈ l1, ∀ b ∈ l1,
      (a.Position fset).Filename = (b.Position fset).Filename →
      (a.Position fset).Line = (b.Position fset).Line → a = b) :
    sortSort (byPosition.Less fset) l1 = sortSort (byPosition.Less fset) l2 := by
  have hp1 := sortSort_perm (byPosition.Less fset) l1
  have hp2 := sortSort_perm (byPosition.Less fset) l2
  refine eq_of_perm_of_pairwise (fun a b => byPosition.Less fset b a = false) _ _
    (hp1.trans (hperm.trans hp2.symm)) ?_ (sortSort_byPosition_pairwise fset l1)
    (sortSort_byPosition_pairwise fset l2)
  intro a ha b hb hab hba
  have hinc := (byPosition_incomparable_iff fset a b).1 ⟨hba, hab⟩
  exact hties a (hp1.subset ha) b (hp1.subset hb) hinc.1 hinc.2

/-- Witness of C13 (amended): the declarations at line 5 of `b.h` and at line 100
of `a.h` sort to the same sequence, the one of `a.h` first, from both emission
orders. -/
theorem sortSort_order_independent_witness :
    sortSort (byPosition.Less twoFilesFset) [declF, declG] =
      sortSort (byPosition.Less twoFilesFset) [declG, declF] ∧
    sortSort (byPosition.Less twoFilesFset) [declF, declG] = [declG, declF] :=
  ⟨sortSort_order_independent twoFilesFset [declF, declG] [declG, declF]
      (List.Perm.swap _ _ _)
      (by
        intro a ha b hb hf hl
        simp only [List.mem_cons, List.mem_singleton, List.not_mem_nil, or_false] at ha hb
        rcases ha with rfl | rfl <;> rcases hb with rfl | rfl
        · rfl
        · exact absurd hl (by decide)
        · exact absurd hl (by decide)
        · rfl),
   twoFiles_sort_F_G⟩

/-- C18: `byPosition.Less` is a strict weak ordering on declarations: it is
irreflexive, asymmetric and transitive, and incomparability is an equivalence
relation that holds exactly between declarations with the same file name and the
same line number. -/
theorem byPosition_Less_strict_weak_order (fset : Int → Position) :
    (∀ a, byPosition.Less fset a a = false) ∧
    (∀ a b, byPosition.Less fset a b = true → byPosition.Less fset b a = false) ∧
    (∀ a b c, byPosition.Less fset a b = true → byPosition.Less fset b c = true →
      byPosition.Less fset a c = true) ∧
    (∀ a b, (byPosition.Less fset a b = false ∧ byPosition.Less fset b a = false) ↔
      ((a.Position fset).Filename = (b.Position fset).Filename ∧
        (a.Position fset).Line = (b.Position fset).Line)) ∧
    Equivalence (fun a b =>
      byPosition.Less fset a b = false ∧ byPosition.Less fset b a = false) := by
  refine ⟨?_, byPosition_Less_asymm fset, byPosition_Less_trans fset,
    byPosition_incomparable_iff fset, ?_, ?_, ?_⟩
  · intro a
    exact ((byPosition_incomparable_iff fset a a).2 ⟨rfl, rfl⟩).1
  · intro a
    exact (byPosition_incomparable_iff fset a a).2 ⟨rfl, rfl⟩
  · intro a b h
    exact ⟨h.2, h.1⟩
  · intro a b c hab hbc
    have h1 := (byPosition_incomparable_iff fset a b).1 hab
    have h2 := (byPosition_incomparable_iff fset b c).1 hbc
    exact (byPosition_incomparable_iff fset a c).2 ⟨h1.1.trans h2.1, h1.2.trans h2.2⟩

/-! ## `UpperCaseFirst` and `LowerCaseFirst` -/

theorem upper_byte (c : Nat) (hc : c < 128) :
    stringOfByte ((c &&& (0xFF ^^^ 0x20)) % 256) = [if c &&& 0x20 = 0 then c else c - 0x20] := by
  revert c
  decide

theorem lower_byte (c : Nat) (hc : c < 128) :
    stringOfByte ((c ||| 0x20) % 256) = [if c &&& 0x20 = 0 then c + 0x20 else c] := by
  revert c
  decide

/-- C15, evaluated on the code: `UpperCaseFirst` clears bit `0x20` of the first
byte whatever that byte is. The empty string is returned unchanged, a lower-case
letter becomes the upper-case letter, an upper-case letter is kept and the bytes
after the first are kept; but `1abc` becomes the control byte `0x11` followed by
`abc`, and `{x` becomes `[x`, where the first character upper-cased leaves both
strings unchanged. -/
theorem UpperCaseFirst_clears_bit :
    UpperCaseFirst [] = [] ∧
    (∀ c rest, c < 128 →
      UpperCaseFirst (c :: rest) = (if c &&& 0x20 = 0 then c else c - 0x20) :: rest) ∧
    (∀ c rest, 0x61 ≤ c → c ≤ 0x7A → UpperCaseFirst (c :: rest) = (c - 0x20) :: rest) ∧
    (∀ c rest, 0x41 ≤ c → c ≤ 0x5A → UpperCaseFirst (c :: rest) = c :: rest) ∧
    UpperCaseFirst (asciiBytes "1abc") = 0x11 :: asciiBytes "abc" ∧
    UpperCaseFirst (asciiBytes "1abc") ≠ upperAscii 0x31 :: asciiBytes "abc" ∧
    UpperCaseFirst (asciiBytes "1abc") ≠ asciiBytes "1abc" ∧
    UpperCaseFirst (asciiBytes "\x7bx") = asciiBytes "[x" ∧
    UpperCaseFirst (asciiBytes "\x7bx") ≠ asciiBytes "\x7bx" := by
  have key : ∀ c rest, c < 128 →
      UpperCaseFirst (c :: rest) = (if c &&& 0x20 = 0 then c else c - 0x20) :: rest := by
    intro c rest hc
    simp only [UpperCaseFirst, upper_byte c hc, List.singleton_append]
  have letters : ∀ c, 0x61 ≤ c → c ≤ 0x7A → c &&& 0x20 ≠ 0 := by decide
  have capitals : ∀ c, 0x41 ≤ c → c ≤ 0x5A → c &&& 0x20 = 0 := by decide
  refine ⟨rfl, key, ?_, ?_, by decide, by decide, by decide, by decide, by decide⟩
  · intro c rest h1 h2
    rw [key c rest (by omega), if_neg (letters c h1 h2)]
  · intro c rest h1 h2
    rw [key c rest (by omega), if_pos (capitals c h1 h2)]

/-- C16, evaluated on the code: `LowerCaseFirst` sets bit `0x20` of the first byte
whatever that byte is. The empty string is returned unchanged, an upper-case
letter becomes the lower-case letter, a lower-case letter is kept and the bytes
after the first are kept; but `_x` becomes the control byte `0x7F` followed by `x`,
and `@x` becomes the byte `0x60` followed by `x`, where the first character
lower-cased leaves both strings unchanged. -/
theorem LowerCaseFirst_sets_bit :
    LowerCaseFirst [] = [] ∧
    (∀ c rest, c < 128 →
      LowerCaseFirst (c :: rest) = (if c &&& 0x20 = 0 then c + 0x20 else c) :: rest) ∧
    (∀ c rest, 0x41 ≤ c → c ≤ 0x5A → LowerCaseFirst (c :: rest) = (c + 0x20) :: rest) ∧
    (∀ c rest, 0x61 ≤ c → c ≤ 0x7A → LowerCaseFirst (c :: rest) = c :: rest) ∧
    LowerCaseFirst (asciiBytes "_x") = 0x7F :: asciiBytes "x" ∧
    LowerCaseFirst (asciiBytes "_x") ≠ lowerAscii 0x5F :: asciiBytes "x" ∧
    LowerCaseFirst (asciiBytes "_x") ≠ asciiBytes "_x" ∧
    LowerCaseFirst (asciiBytes "@x") = 0x60 :: asciiBytes "x" ∧
    LowerCaseFirst (asciiBytes "@x") ≠ asciiBytes "@x" := by
  have key : ∀ c rest, c < 128 →
      LowerCaseFirst (c :: rest) = (if c &&& 0x20 = 0 then c + 0x20 else c) :: rest := by
    intro c rest hc
    simp only [LowerCaseFirst, lower_byte c hc, List.singleton_append]
  have letters : ∀ c, 0x61 ≤ c → c ≤ 0x7A → c &&& 0x20 ≠ 0 := by decide
  have capitals : ∀ c, 0x41 ≤ c → c ≤ 0x5A → c &&& 0x20 = 0 := by decide
  refine ⟨rfl, key, ?_, ?_, by decide, by decide, by decide, by decide, by decide⟩
  · intro c rest h1 h2
    rw [key c rest (by omega), if_pos (capitals c h1 h2)]
  · intro c rest h1 h2
    rw [key c rest (by omega), if_neg (letters c h1 h2)]

/-! ## `DocComments` -/

/-- C17, evaluated on the code: the documented method `M` declared on the receiver
`*T` is stored under the empty type name, `docs[""]["M"]`, and `docs["T"]["M"]` is
missing; the method `N` on the receiver `T` is stored under `docs["T"]["N"]`, the
function `F` under `docs[""]["F"]`, and the undocumented `G` is absent. -/
theorem DocComments_pointer_receiver :
    ∃ docs, DocComments (.ok sampleTree) = .ok docs ∧
      docs.get "T" "M" = none ∧
      docs.get "" "M" = some ["// M does."] ∧
      docs.get "T" "N" = some ["// N does."] ∧
      docs.get "" "F" = some ["// F does."] ∧
      docs.get "" "G" = none ∧
      docs.get "T" "G" = none :=
  ⟨_, rfl, by decide, by decide, by decide, by decide, by decide, by decide⟩

end Binding
